import Mathlib

/-!
# User model of `golang-aah` (`app/models/users.go`, `app/utils/bcrypt.go`)

A shallow embedding of the `User` record and of its methods `BeforeSave`,
`Prepare`, `Validate`, `SaveUser`, `FindUserByID`, `UpdateAUser` and
`DeleteAUser`, followed by the properties established about them.

Conventions of the embedding:

* a Go `string` is a Lean `String` (the embedding covers strings that are valid
  UTF-8, so that bytes and runes of the Go string correspond to the characters
  of the Lean string);
* a Go `error` is an `Option GoError`, `none` being `nil`;
* `uint32` and `time.Time` values are natural numbers;
* the third-party services (`checkmail.ValidateFormat`, `bcrypt`, the SQL
  driver behind `gorm`) and the clock `utils.GetNow` are parameters;
* `BeforeSave` and `Prepare`, which only write to their pointer receiver,
  return the receiver after the call; the database methods return the content
  of the database after the call next to their Go results.
-/

namespace Models

/-! ## Data model -/

/-- `time.Time`, as an instant counted from an arbitrary origin. -/
abbrev Time := Nat

/-- Error values met by the model. `New msg` is a value built by
`errors.New(msg)` inside `users.go`; `RecordNotFound` is the sentinel
`gorm.ErrRecordNotFound`; `External msg` is any other error value raised by a
library (bcrypt, checkmail, the SQL driver). -/
inductive GoError where
  | New (msg : String)
  | RecordNotFound
  | External (msg : String)
  deriving DecidableEq, Repr

/-- Go `error`: `none` is `nil`. -/
abbrev error := Option GoError

/-- The Go struct `User` (`users.go`, lines 17-24). -/
structure User where
  ID : Nat
  Nickname : String
  Email : String
  Password : String
  CreatedAt : Time
  UpdatedAt : Time
  deriving DecidableEq, Repr

/-- The zero value `User{}`. -/
def User.zero : User := ⟨0, "", "", "", 0, 0⟩

/-! ## Go standard library functions used by the model -/

/-- `unicode.ToLower` as far as `Validate` can observe it. The switch compares
the lowered action with the ASCII literals "update" and "login" only, so what
matters is which runes lower to an ASCII letter: `A`-`Z`, U+0130 (to `i`) and
U+212A (to `k`). Every other rune lowers to itself or to a non-ASCII rune and
is left as it is here. -/
def toLowerRune (c : Char) : Char :=
  if 65 ≤ c.toNat ∧ c.toNat ≤ 90 then Char.ofNat (c.toNat + 32)
  else if c.toNat = 0x130 then 'i'
  else if c.toNat = 0x212A then 'k'
  else c

/-- `strings.ToLower`. -/
def ToLower (s : String) : String := ⟨s.data.map toLowerRune⟩

/-- `unicode.IsSpace`: the White_Space code points. -/
def isSpace (c : Char) : Bool :=
  let n := c.toNat
  (9 ≤ n && n ≤ 13) || n == 0x20 || n == 0x85 || n == 0xA0 || n == 0x1680 ||
  (0x2000 ≤ n && n ≤ 0x200A) || n == 0x2028 || n == 0x2029 || n == 0x202F ||
  n == 0x205F || n == 0x3000

/-- Removal of the trailing white space of a rune sequence. -/
def trimRight (l : List Char) : List Char :=
  (l.reverse.dropWhile isSpace).reverse

/-- `strings.TrimSpace`: the string without its leading and trailing white
space. -/
def TrimSpace (s : String) : String := ⟨trimRight (s.data.dropWhile isSpace)⟩

/-- The replacement table of `html.EscapeString`, applied to one rune. -/
def escapeRune (c : Char) : List Char :=
  if c = '&' then "&amp;".data
  else if c = '\'' then "&#39;".data
  else if c = '<' then "&lt;".data
  else if c = '>' then "&gt;".data
  else if c = '"' then "&#34;".data
  else [c]

/-- `html.EscapeString`: one left-to-right pass replacing each of the five
special characters by its entity. -/
def EscapeString (s : String) : String := ⟨s.data.flatMap escapeRune⟩

/-- `errors.New(msg)` as an `error` value. -/
def errorsNew (msg : String) : error := some (GoError.New msg)

/-! ## Methods without database access -/

/-- `User.Validate` (`users.go`, lines 46-90). `ValidateFormat` stands for
`checkmail.ValidateFormat`. -/
def Validate (ValidateFormat : String → error) (u : User) (action : String) : error :=
  if ToLower action = "update" then
    if u.Nickname = "" then errorsNew "Nickname required"
    else if u.Password = "" then errorsNew "Password required"
    else if u.Email = "" then errorsNew "Email required"
    else if ValidateFormat u.Email ≠ none then errorsNew "Invalid email"
    else none
  else if ToLower action = "login" then
    if u.Password = "" then errorsNew "Password required"
    else if u.Email = "" then errorsNew "Email required"
    else if ValidateFormat u.Email ≠ none then errorsNew "Invalid email"
    else none
  else
    if u.Nickname = "" then errorsNew "Nickname required"
    else if u.Password = "" then errorsNew "Password required"
    else if u.Email = "" then errorsNew "Email required"
    else if ValidateFormat u.Email ≠ none then errorsNew "Invalid Email"
    else none

/-- `User.Prepare` (`users.go`, lines 37-43). `t₁` and `t₂` are the instants
returned by the two successive calls of `utils.GetNow`. -/
def Prepare (t₁ t₂ : Time) (u : User) : User :=
  { u with
    ID := 0
    Nickname := EscapeString (TrimSpace u.Nickname)
    Email := EscapeString (TrimSpace u.Email)
    CreatedAt := t₁
    UpdatedAt := t₂ }

/-- `utils.Hash` (`bcrypt.go`, lines 6-8): the digest computed by
`bcrypt.GenerateFromPassword`, or its error. The bcrypt primitive is the
parameter `generate`. -/
def Hash (generate : String → Except GoError String) (password : String) :
    Except GoError String :=
  generate password

/-- `User.BeforeSave` (`users.go`, lines 27-34): the receiver after the call
and the returned error. -/
def BeforeSave (generate : String → Except GoError String) (u : User) : User × error :=
  match Hash generate u.Password with
  | .error err => (u, some err)
  | .ok hashedPassword => ({ u with Password := hashedPassword }, none)

/-! ## The database handle

`gorm.DB` (github.com/jinzhu/gorm) and the SQL database behind it are not part
of the repository. The model keeps what the methods of `users.go` rely on:

* a handle carries the conditions accumulated by `Where`, the field `Error` and
  the field `RowsAffected`; every chained call returns a copy of the handle,
  which keeps `Error`;
* `Take`, `UpdateColumns`, `Delete` and `Create` do not reach the database when
  the handle already carries an error;
* `Take` sets `Error` to `ErrRecordNotFound` when the query returns no row;
* `Create` calls the method `BeforeSave` of the record before the INSERT
  statement, `UpdateColumns` calls no method of the record.

The statements themselves are executed by a `Driver`, which is a parameter. -/

/-- A column value of an `UpdateColumns` map. -/
inductive Value where
  | str (s : String)
  | time (t : Time)
  | uint (n : Nat)
  deriving DecidableEq, Repr

/-- The SQL side of the persistence backend for the table `users`; `σ` is the
content of the database. The conditions are the values `v` of the clauses
`id = v` of the WHERE part, taken conjunctively. -/
structure Driver (σ : Type) where
  /-- The INSERT of a record, with what gorm does around it once the hooks have
  run (time stamps of blank fields, generated key read back): the record as
  stored and the new content. -/
  insert : σ → User → Except GoError (User × σ)
  /-- The statement `SELECT * FROM users WHERE ... LIMIT 1`. -/
  selectOne : σ → List Nat → Except GoError (Option User)
  /-- The statement `UPDATE users SET ... WHERE ...`: the number of rows
  affected and the new content. -/
  update : σ → List Nat → List (String × Value) → Except GoError (Nat × σ)
  /-- The statement `DELETE FROM users WHERE ...`: the number of rows affected
  and the new content. -/
  delete : σ → List Nat → Except GoError (Nat × σ)

/-- The handle `*gorm.DB`, together with the content of the database it is
connected to. -/
structure DB (σ : Type) where
  store : σ
  conds : List Nat
  Error : error
  RowsAffected : Int

/-- A handle as returned by `gorm.Open`: no condition, no error. -/
def DB.connect {σ : Type} (store : σ) : DB σ := ⟨store, [], none, 0⟩

/-- `db.Debug()`: switches logging on. -/
def DB.Debug {σ : Type} (db : DB σ) : DB σ := { db with RowsAffected := 0 }

/-- `db.Model(&User{})`: selects the table `users`, the only table of the model. -/
def DB.Model {σ : Type} (db : DB σ) : DB σ := { db with RowsAffected := 0 }

/-- `db.Where("id = ?", uid)`. -/
def DB.Where {σ : Type} (db : DB σ) (uid : Nat) : DB σ :=
  { db with conds := db.conds ++ [uid], RowsAffected := 0 }

/-- `db.Take(&out)`: the handle returned and the content of `out` afterwards. A
non-zero primary key of `out` is added to the conditions of the query. -/
def DB.Take {σ : Type} (drv : Driver σ) (db : DB σ) (out : User) : DB σ × User :=
  if db.Error ≠ none then ({ db with RowsAffected := 0 }, out)
  else
    match drv.selectOne db.store (db.conds ++ (if out.ID ≠ 0 then [out.ID] else [])) with
    | .error err => ({ db with Error := some err, RowsAffected := 0 }, out)
    | .ok none => ({ db with Error := some GoError.RecordNotFound, RowsAffected := 0 }, out)
    | .ok (some row) => ({ db with RowsAffected := 1 }, row)

/-- `db.UpdateColumns(values)` on a handle whose model is `&User{}`. -/
def DB.UpdateColumns {σ : Type} (drv : Driver σ) (db : DB σ)
    (values : List (String × Value)) : DB σ :=
  if db.Error ≠ none then { db with RowsAffected := 0 }
  else
    match drv.update db.store db.conds values with
    | .error err => { db with Error := some err, RowsAffected := 0 }
    | .ok (n, store) => { db with store := store, RowsAffected := n }

/-- `db.Delete(&User{})`. -/
def DB.Delete {σ : Type} (drv : Driver σ) (db : DB σ) : DB σ :=
  if db.Error ≠ none then { db with RowsAffected := 0 }
  else
    match drv.delete db.store db.conds with
    | .error err => { db with Error := some err, RowsAffected := 0 }
    | .ok (n, store) => { db with store := store, RowsAffected := n }

/-- `db.Create(&u)`: the handle returned and the content of `u` afterwards. The
hook `BeforeSave` runs first; its error stops the chain. -/
def DB.Create {σ : Type} (drv : Driver σ) (generate : String → Except GoError String)
    (db : DB σ) (u : User) : DB σ × User :=
  if db.Error ≠ none then ({ db with RowsAffected := 0 }, u)
  else
    match BeforeSave generate u with
    | (u₁, some err) => ({ db with Error := some err, RowsAffected := 0 }, u₁)
    | (u₁, none) =>
      match drv.insert db.store u₁ with
      | .error err => ({ db with Error := some err, RowsAffected := 0 }, u₁)
      | .ok (row, store) => ({ db with store := store, RowsAffected := 1 }, row)

/-- `gorm.IsRecordNotFoundError`. -/
def IsRecordNotFoundError (err : error) : Bool :=
  err == some GoError.RecordNotFound

/-! ## Methods with database access

Each method returns the content of the database after the call, followed by
the Go results. -/

/-- `User.SaveUser` (`users.go`, lines 93-100). -/
def SaveUser {σ : Type} (drv : Driver σ) (generate : String → Except GoError String)
    (db : DB σ) (u : User) : σ × User × error :=
  let r := DB.Create drv generate db.Debug u
  let err := r.1.Error
  if err ≠ none then (r.1.store, User.zero, err)
  else (r.1.store, r.2, none)

/-- `User.FindUserByID` (`users.go`, lines 115-125). -/
def FindUserByID {σ : Type} (drv : Driver σ) (db : DB σ) (u : User) (uid : Nat) :
    User × error :=
  let r := DB.Take drv (db.Debug.Model.Where uid) u
  let err := r.1.Error
  if err ≠ none then (User.zero, err)
  else if IsRecordNotFoundError err then (User.zero, errorsNew "User not found")
  else (r.2, err)

/-- The result of a call that may end the process. -/
inductive Outcome (α : Type) where
  | exit (code : Nat)
  | ret (a : α)

/-- The map literal of `UpdateAUser` (`users.go`, lines 136-141); `now` is the
instant returned by `utils.GetNow`. -/
def updateValues (u : User) (now : Time) : List (String × Value) :=
  [("password", Value.str u.Password),
   ("nickname", Value.str u.Nickname),
   ("email", Value.str u.Email),
   ("updated_at", Value.time now)]

/-- `User.UpdateAUser` (`users.go`, lines 128-152). `log.Fatal` ends the
process with status 1. -/
def UpdateAUser {σ : Type} (drv : Driver σ) (generate : String → Except GoError String)
    (now : Time) (db : DB σ) (u : User) (uid : Nat) : Outcome (σ × User × error) :=
  match BeforeSave generate u with
  | (_, some _) => Outcome.exit 1
  | (u₁, none) =>
    let db₁ := DB.UpdateColumns drv (DB.Take drv (db.Debug.Model.Where uid) User.zero).1
      (updateValues u₁ now)
    if db₁.Error ≠ none then Outcome.ret (db₁.store, User.zero, db₁.Error)
    else
      let r := DB.Take drv (db₁.Debug.Model.Where uid) u₁
      let err := r.1.Error
      if err ≠ none then Outcome.ret (r.1.store, User.zero, err)
      else Outcome.ret (r.1.store, r.2, none)

/-- `User.DeleteAUser` (`users.go`, lines 155-162). -/
def DeleteAUser {σ : Type} (drv : Driver σ) (db : DB σ) (_u : User) (uid : Nat) :
    σ × Int × error :=
  let db₁ := DB.Delete drv (DB.Take drv (db.Debug.Model.Where uid) User.zero).1
  if db₁.Error ≠ none then (db₁.store, 0, db₁.Error)
  else (db₁.store, db₁.RowsAffected, none)

/-! ## An in-memory driver

The table `users` as a list of rows, with the usual meaning of the four
statements. It serves the frame property of `UpdateAUser` and the concrete
evaluations. -/

/-- The WHERE part: the row satisfies each clause `id = v`. -/
def matchesConds (conds : List Nat) (r : User) : Bool :=
  conds.all (fun v => r.ID == v)

/-- The assignment `column = value` of an UPDATE statement on one row; `none`
for an unknown column or a value of the wrong type. -/
def setColumn (r : User) (cv : String × Value) : Option User :=
  match cv with
  | (col, Value.uint n) => if col = "id" then some { r with ID := n } else none
  | (col, Value.str s) =>
    if col = "nickname" then some { r with Nickname := s }
    else if col = "email" then some { r with Email := s }
    else if col = "password" then some { r with Password := s }
    else none
  | (col, Value.time t) =>
    if col = "created_at" then some { r with CreatedAt := t }
    else if col = "updated_at" then some { r with UpdatedAt := t }
    else none

/-- The SET part of an UPDATE statement on one row. -/
def setColumns (values : List (String × Value)) (r : User) : Option User :=
  values.foldlM setColumn r

/-- The UPDATE statement on a table: the matching rows are patched. -/
def updateRows (conds : List Nat) (values : List (String × Value)) :
    List User → Option (List User)
  | [] => some []
  | r :: rows =>
    if matchesConds conds r then
      match setColumns values r, updateRows conds values rows with
      | some r₁, some rows₁ => some (r₁ :: rows₁)
      | _, _ => none
    else (updateRows conds values rows).map (fun rows₁ => r :: rows₁)

/-- The key given to a row inserted without one. -/
def nextID (rows : List User) : Nat :=
  (rows.map (fun r => r.ID)).foldl max 0 + 1

/-- The in-memory driver. -/
def memDriver : Driver (List User) where
  insert rows u :=
    let row := if u.ID = 0 then { u with ID := nextID rows } else u
    if rows.any (fun r => r.ID == row.ID || r.Nickname == row.Nickname) then
      .error (GoError.External "duplicate key value violates unique constraint")
    else .ok (row, rows ++ [row])
  selectOne rows conds := .ok (rows.find? (matchesConds conds))
  update rows conds values :=
    match updateRows conds values rows with
    | none => .error (GoError.External "invalid column")
    | some rows₁ => .ok ((rows.filter (matchesConds conds)).length, rows₁)
  delete rows conds :=
    .ok ((rows.filter (matchesConds conds)).length,
      rows.filter (fun r => !matchesConds conds r))

/-- A sample hash service used to exercise the theorems: the digest is the
password behind a fixed prefix. -/
def sampleGenerate (password : String) : Except GoError String :=
  if password.length ≤ 72 then .ok ("$2a$10$" ++ password)
  else .error (GoError.External "bcrypt: password length exceeds 72 bytes")

/-- The verification that goes with `sampleGenerate`. -/
def sampleVerify (digest password : String) : Bool :=
  digest == "$2a$10$" ++ password

/-- A sample stored row. -/
def alice : User := ⟨1, "al", "al@x.com", "$2a$10$pw", 3, 4⟩

/-- A sample request record. -/
def bob : User := ⟨0, "bob", "bob@x.com", "secret", 5, 6⟩

/-! ## Sample data and predicates of the statements -/

/-- A sample format checker used to exercise the theorems on concrete records:
it accepts the strings containing `@`. -/
def sampleValidateFormat (email : String) : error :=
  if '@' ∈ email.data then none else some (GoError.External "invalid format")

/-- Membership of an error value in the class `InvalidEmailFormat` of the error
taxonomy: a value built by `errors.New` whose message reads "invalid email",
letter case apart. -/
def isInvalidEmailFormat (e : error) : Bool :=
  match e with
  | some (GoError.New msg) => ToLower msg == "invalid email"
  | _ => false

/-- The five characters replaced by `html.EscapeString`. -/
def isSpecial (c : Char) : Bool :=
  c == '&' || c == '\'' || c == '<' || c == '>' || c == '"'

/-- The five entities written by `html.EscapeString`. -/
def entities : List String := ["&amp;", "&#39;", "&lt;", "&gt;", "&#34;"]

/-- A rune sequence neither starts nor ends with white space. -/
def Trimmed (l : List Char) : Prop :=
  (∀ c, l.head? = some c → isSpace c = false) ∧ (∀ c, l.getLast? = some c → isSpace c = false)

/-- The record is what `Prepare` makes of the field `orig`: the escaping of the
trimmed field, without leading or trailing white space, without any of the
markup characters, each of its ampersands starting an entity. -/
def Sanitized (orig out : String) : Prop :=
  out = EscapeString (TrimSpace orig) ∧
  (∀ c, out.data.head? = some c → isSpace c = false) ∧
  (∀ c, out.data.getLast? = some c → isSpace c = false) ∧
  (∀ c ∈ out.data, c ≠ '<' ∧ c ≠ '>' ∧ c ≠ '"' ∧ c ≠ '\'') ∧
  (∀ pre suf, out.data = pre ++ '&' :: suf → ∃ e ∈ entities, e.data <+: '&' :: suf)

/-- The row after the patch of `UpdateAUser`. -/
def patched (u : User) (now : Time) (r : User) : User :=
  { r with Password := u.Password, Nickname := u.Nickname, Email := u.Email, UpdatedAt := now }

end Models

namespace Models

/-! ## `Validate` -/

theorem toLower_create : ToLower "create" = "create" := by decide

theorem toLower_update : ToLower "update" = "update" := by decide

theorem toLower_login : ToLower "login" = "login" := by decide

/-- C1: a record with a non-empty password and a non-empty email accepted by the
format checker passes `Validate` with action "login" whatever its nickname; when
its nickname is empty it passes "login" and fails "create" (with the error
"Nickname required"). -/
theorem validate_login_ignores_nickname (ValidateFormat : String → error) (u : User)
    (hp : u.Password ≠ "") (he : u.Email ≠ "") (hv : ValidateFormat u.Email = none) :
    Validate ValidateFormat u "login" = none ∧
    (u.Nickname = "" →
      Validate ValidateFormat u "create" = errorsNew "Nickname required" ∧
      Validate ValidateFormat u "create" ≠ none) := by
  refine ⟨?_, fun hn => ⟨?_, ?_⟩⟩
  · simp [Validate, toLower_login, hp, he, hv]
  · simp [Validate, toLower_create, hn]
  · simp [Validate, toLower_create, hn, errorsNew]

theorem validate_login_ignores_nickname_witness :
    Validate sampleValidateFormat ⟨7, "", "a@b.com", "x", 0, 0⟩ "login" = none ∧
    (("" : String) = "" →
      Validate sampleValidateFormat ⟨7, "", "a@b.com", "x", 0, 0⟩ "create"
        = errorsNew "Nickname required" ∧
      Validate sampleValidateFormat ⟨7, "", "a@b.com", "x", 0, 0⟩ "create" ≠ none) :=
  validate_login_ignores_nickname sampleValidateFormat ⟨7, "", "a@b.com", "x", 0, 0⟩
    (by decide) (by decide) (by decide)

/-- C2: with action "create", `Validate` returns the error of the first failing
rule in the order nickname, password, email, email format ("Nickname required",
"Password required", "Email required", then the invalid-email error), and it
returns no error exactly when none of the four rules fails. -/
theorem validate_create_first_failing_rule (ValidateFormat : String → error) (u : User) :
    (u.Nickname = "" → Validate ValidateFormat u "create" = errorsNew "Nickname required") ∧
    (u.Nickname ≠ "" → u.Password = "" →
      Validate ValidateFormat u "create" = errorsNew "Password required") ∧
    (u.Nickname ≠ "" → u.Password ≠ "" → u.Email = "" →
      Validate ValidateFormat u "create" = errorsNew "Email required") ∧
    (u.Nickname ≠ "" → u.Password ≠ "" → u.Email ≠ "" → ValidateFormat u.Email ≠ none →
      isInvalidEmailFormat (Validate ValidateFormat u "create") = true) ∧
    (Validate ValidateFormat u "create" = none ↔
      u.Nickname ≠ "" ∧ u.Password ≠ "" ∧ u.Email ≠ "" ∧ ValidateFormat u.Email = none) := by
  refine ⟨?_, ?_, ?_, ?_, ?_⟩
  · intro hn
    simp [Validate, toLower_create, hn]
  · intro hn hp
    simp [Validate, toLower_create, hn, hp]
  · intro hn hp he
    simp [Validate, toLower_create, hn, hp, he]
  · intro hn hp he hv
    simp [Validate, toLower_create, hn, hp, he, hv, errorsNew, isInvalidEmailFormat]
    decide
  · by_cases hn : u.Nickname = ""
    · simp [Validate, toLower_create, hn, errorsNew]
    · by_cases hp : u.Password = ""
      · simp [Validate, toLower_create, hn, hp, errorsNew]
      · by_cases he : u.Email = ""
        · simp [Validate, toLower_create, hn, hp, he, errorsNew]
        · by_cases hv : ValidateFormat u.Email = none
          · simp [Validate, toLower_create, hn, hp, he, hv]
          · simp [Validate, toLower_create, hn, hp, he, hv, errorsNew]

theorem validate_create_first_failing_rule_witness :
    Validate sampleValidateFormat ⟨0, "", "", "", 0, 0⟩ "create"
        = errorsNew "Nickname required" ∧
    Validate sampleValidateFormat ⟨0, "bob", "", "", 0, 0⟩ "create"
        = errorsNew "Password required" ∧
    Validate sampleValidateFormat ⟨0, "bob", "", "secret", 0, 0⟩ "create"
        = errorsNew "Email required" ∧
    isInvalidEmailFormat
      (Validate sampleValidateFormat ⟨0, "bob", "not-an-email", "secret", 0, 0⟩ "create")
        = true ∧
    Validate sampleValidateFormat ⟨0, "bob", "bob@x.com", "secret", 0, 0⟩ "create" = none :=
  ⟨(validate_create_first_failing_rule sampleValidateFormat ⟨0, "", "", "", 0, 0⟩).1 rfl,
   (validate_create_first_failing_rule sampleValidateFormat ⟨0, "bob", "", "", 0, 0⟩).2.1
      (by decide) rfl,
   (validate_create_first_failing_rule sampleValidateFormat
      ⟨0, "bob", "", "secret", 0, 0⟩).2.2.1 (by decide) (by decide) rfl,
   (validate_create_first_failing_rule sampleValidateFormat
      ⟨0, "bob", "not-an-email", "secret", 0, 0⟩).2.2.2.1
      (by decide) (by decide) (by decide) (by decide),
   (validate_create_first_failing_rule sampleValidateFormat
      ⟨0, "bob", "bob@x.com", "secret", 0, 0⟩).2.2.2.2.2
      ⟨by decide, by decide, by decide, by decide⟩⟩

/-- C3, as stated, fails: the record with an empty nickname, the password "x" and
the email "not-an-email", which the format checker rejects, gets "Nickname
required" from `Validate` with action "create", not the invalid-email error. -/
theorem validate_invalid_email_counterexample :
    ¬ (∀ (ValidateFormat : String → error) (u : User) (action : String),
        action ∈ ["create", "update", "login"] → ValidateFormat u.Email ≠ none →
        isInvalidEmailFormat (Validate ValidateFormat u action) = true) := by
  intro h
  have h1 := h sampleValidateFormat ⟨0, "", "not-an-email", "x", 0, 0⟩ "create"
    (by decide) (by decide)
  revert h1
  decide

/-- C3, amended: for a record whose email the format checker rejects, in each of
the modes "create", "update" and "login", `Validate` returns the error of the
first rule that fails: "Nickname required" for an empty nickname (modes "create"
and "update" only), else "Password required" for an empty password, else "Email
required" for an empty email, and, when these rules pass, the invalid-email
error. -/
theorem validate_invalid_email (ValidateFormat : String → error) (u : User) (action : String)
    (ha : action ∈ ["create", "update", "login"]) (hv : ValidateFormat u.Email ≠ none) :
    (action ≠ "login" → u.Nickname = "" →
      Validate ValidateFormat u action = errorsNew "Nickname required") ∧
    ((action ≠ "login" → u.Nickname ≠ "") → u.Password = "" →
      Validate ValidateFormat u action = errorsNew "Password required") ∧
    ((action ≠ "login" → u.Nickname ≠ "") → u.Password ≠ "" → u.Email = "" →
      Validate ValidateFormat u action = errorsNew "Email required") ∧
    ((action ≠ "login" → u.Nickname ≠ "") → u.Password ≠ "" → u.Email ≠ "" →
      isInvalidEmailFormat (Validate ValidateFormat u action) = true) := by
  simp only [List.mem_cons, List.mem_singleton, List.not_mem_nil, or_false] at ha
  rcases ha with rfl | rfl | rfl
  · refine ⟨fun _ hn => ?_, fun hn hp => ?_, fun hn hp he => ?_, fun hn hp he => ?_⟩
    · simp [Validate, toLower_create, hn]
    · have hn1 := hn (by decide)
      simp [Validate, toLower_create, hn1, hp]
    · have hn1 := hn (by decide)
      simp [Validate, toLower_create, hn1, hp, he]
    · have hn1 := hn (by decide)
      simp [Validate, toLower_create, hn1, hp, he, hv, errorsNew, isInvalidEmailFormat]
      decide
  · refine ⟨fun _ hn => ?_, fun hn hp => ?_, fun hn hp he => ?_, fun hn hp he => ?_⟩
    · simp [Validate, toLower_update, hn]
    · have hn1 := hn (by decide)
      simp [Validate, toLower_update, hn1, hp]
    · have hn1 := hn (by decide)
      simp [Validate, toLower_update, hn1, hp, he]
    · have hn1 := hn (by decide)
      simp [Validate, toLower_update, hn1, hp, he, hv, errorsNew, isInvalidEmailFormat]
      decide
  · refine ⟨fun h _ => absurd rfl h, fun _ hp => ?_, fun _ hp he => ?_, fun _ hp he => ?_⟩
    · simp [Validate, toLower_login, hp]
    · simp [Validate, toLower_login, hp, he]
    · simp [Validate, toLower_login, hp, he, hv, errorsNew, isInvalidEmailFormat]
      decide

theorem validate_invalid_email_witness :
    Validate sampleValidateFormat ⟨0, "", "not-an-email", "x", 0, 0⟩ "update"
      = errorsNew "Nickname required" ∧
    Validate sampleValidateFormat ⟨0, "", "not-an-email", "", 0, 0⟩ "login"
      = errorsNew "Password required" ∧
    Validate sampleValidateFormat ⟨0, "bob", "", "x", 0, 0⟩ "update"
      = errorsNew "Email required" ∧
    isInvalidEmailFormat
      (Validate sampleValidateFormat ⟨0, "", "not-an-email", "x", 0, 0⟩ "login") = true ∧
    isInvalidEmailFormat
      (Validate sampleValidateFormat ⟨0, "bob", "not-an-email", "x", 0, 0⟩ "update") = true :=
  ⟨(validate_invalid_email sampleValidateFormat ⟨0, "", "not-an-email", "x", 0, 0⟩ "update"
      (by decide) (by decide)).1 (by decide) rfl,
   (validate_invalid_email sampleValidateFormat ⟨0, "", "not-an-email", "", 0, 0⟩ "login"
      (by decide) (by decide)).2.1 (fun h => absurd rfl h) rfl,
   (validate_invalid_email sampleValidateFormat ⟨0, "bob", "", "x", 0, 0⟩ "update"
      (by decide) (by decide)).2.2.1 (fun _ => by decide) (by decide) rfl,
   (validate_invalid_email sampleValidateFormat ⟨0, "", "not-an-email", "x", 0, 0⟩ "login"
      (by decide) (by decide)).2.2.2 (fun h => absurd rfl h) (by decide) (by decide),
   (validate_invalid_email sampleValidateFormat ⟨0, "bob", "not-an-email", "x", 0, 0⟩ "update"
      (by decide) (by decide)).2.2.2 (fun _ => by decide) (by decide) (by decide)⟩

/-- C10: on the record with nickname "bob", password "x" and the rejected email
"not-an-email", `Validate` returns the message "Invalid Email" for "create" and
"Invalid email" for "update": the two branches do not return the same error. -/
theorem validate_create_update_messages_differ :
    Validate sampleValidateFormat ⟨0, "bob", "not-an-email", "x", 0, 0⟩ "create"
      = errorsNew "Invalid Email" ∧
    Validate sampleValidateFormat ⟨0, "bob", "not-an-email", "x", 0, 0⟩ "update"
      = errorsNew "Invalid email" ∧
    Validate sampleValidateFormat ⟨0, "bob", "not-an-email", "x", 0, 0⟩ "create"
      ≠ Validate sampleValidateFormat ⟨0, "bob", "not-an-email", "x", 0, 0⟩ "update" := by
  decide

/-! ## `Prepare`: escaping and trimming -/

theorem escapeRune_of_not_special {c : Char} (h : isSpecial c = false) : escapeRune c = [c] := by
  simp only [isSpecial, Bool.or_eq_false_iff, beq_eq_false_iff_ne, ne_eq] at h
  obtain ⟨⟨⟨⟨h1, h2⟩, h3⟩, h4⟩, h5⟩ := h
  simp [escapeRune, h1, h2, h3, h4, h5]

theorem escapeRune_of_special {c : Char} (h : isSpecial c = true) :
    ∃ e ∈ entities, escapeRune c = e.data := by
  unfold escapeRune
  split_ifs with h1 h2 h3 h4 h5
  · exact ⟨_, by simp [entities], rfl⟩
  · exact ⟨_, by simp [entities], rfl⟩
  · exact ⟨_, by simp [entities], rfl⟩
  · exact ⟨_, by simp [entities], rfl⟩
  · exact ⟨_, by simp [entities], rfl⟩
  · simp [isSpecial, h1, h2, h3, h4, h5] at h

theorem entity_shape {e : String} (he : e ∈ entities) :
    ∃ body, e.data = '&' :: body ∧ '&' ∉ body ∧ (∀ c ∈ body, isSpecial c = false) ∧
      body.getLast? = some ';' ∧ 2 ≤ body.length := by
  simp only [entities, List.mem_cons, List.mem_singleton, List.not_mem_nil, or_false] at he
  rcases he with rfl | rfl | rfl | rfl | rfl
  all_goals exact ⟨_, rfl, by decide, by decide, by decide, by decide⟩

theorem escapeRune_ne_nil (c : Char) : escapeRune c ≠ [] := by
  unfold escapeRune
  split_ifs <;> simp

theorem flatMap_escapeRune_of_not_special :
    ∀ l : List Char, (∀ c ∈ l, isSpecial c = false) → l.flatMap escapeRune = l
  | [], _ => rfl
  | c :: l, h => by
    rw [List.flatMap_cons, escapeRune_of_not_special (h c (List.mem_cons_self _ _)),
      flatMap_escapeRune_of_not_special l (fun d hd => h d (List.mem_cons_of_mem _ hd))]
    rfl

theorem length_escapeRune (c : Char) : 1 ≤ (escapeRune c).length := by
  unfold escapeRune
  split_ifs <;> simp

theorem length_le_flatMap_escapeRune :
    ∀ l : List Char, l.length ≤ (l.flatMap escapeRune).length
  | [] => by simp
  | c :: l => by
    have h1 := length_escapeRune c
    have h2 := length_le_flatMap_escapeRune l
    simp only [List.flatMap_cons, List.length_append, List.length_cons]
    omega

theorem length_lt_flatMap_escapeRune :
    ∀ l : List Char, (∃ c ∈ l, isSpecial c = true) →
      l.length < (l.flatMap escapeRune).length
  | [], h => by simp at h
  | c :: l, h => by
    have h2 := length_le_flatMap_escapeRune l
    simp only [List.flatMap_cons, List.length_append, List.length_cons]
    by_cases hc : isSpecial c = true
    · obtain ⟨e, he, hce⟩ := escapeRune_of_special hc
      obtain ⟨body, hb, -, -, -, hlen⟩ := entity_shape he
      rw [hce, hb, List.length_cons]
      omega
    · have h1 := length_escapeRune c
      have h3 : ∃ d ∈ l, isSpecial d = true := by
        obtain ⟨d, hd, hds⟩ := h
        rcases List.mem_cons.1 hd with rfl | hd
        · exact absurd hds hc
        · exact ⟨d, hd, hds⟩
      have h4 := length_lt_flatMap_escapeRune l h3
      omega

/-- Escaping twice gives the same as escaping once exactly when nothing had to be escaped. -/
theorem flatMap_escapeRune_idem_iff (l : List Char) :
    (l.flatMap escapeRune).flatMap escapeRune = l.flatMap escapeRune ↔
      ∀ c ∈ l, isSpecial c = false := by
  constructor
  · intro h c hc
    by_contra hs
    have hs1 : isSpecial c = true := by simpa using hs
    -- the escaped list contains an ampersand
    obtain ⟨e, he, hce⟩ := escapeRune_of_special hs1
    obtain ⟨body, hb, -⟩ := entity_shape he
    have hamp : '&' ∈ l.flatMap escapeRune :=
      List.mem_flatMap.2 ⟨c, hc, by rw [hce, hb]; exact List.mem_cons_self _ _⟩
    have hlt := length_lt_flatMap_escapeRune (l.flatMap escapeRune) ⟨'&', hamp, by decide⟩
    rw [h] at hlt
    exact lt_irrefl _ hlt
  · intro h
    rw [flatMap_escapeRune_of_not_special l h, flatMap_escapeRune_of_not_special l h]

theorem head?_dropWhile_isSpace (l : List Char) :
    ∀ c, (l.dropWhile isSpace).head? = some c → isSpace c = false := by
  intro c hc
  have h := List.head?_dropWhile_not isSpace l
  rw [hc] at h
  exact h

theorem dropWhile_isSpace_of_head {l : List Char}
    (h : ∀ c, l.head? = some c → isSpace c = false) : l.dropWhile isSpace = l := by
  cases l with
  | nil => rfl
  | cons a l => simp [List.dropWhile_cons, h a rfl]

theorem trimRight_of_last {l : List Char}
    (h : ∀ c, l.getLast? = some c → isSpace c = false) : trimRight l = l := by
  unfold trimRight
  rw [dropWhile_isSpace_of_head, List.reverse_reverse]
  intro c hc
  rw [List.head?_reverse] at hc
  exact h c hc

theorem trimRight_init (l : List Char) : trimRight l <+: l := by
  unfold trimRight
  have h := List.dropWhile_suffix (l := l.reverse) isSpace
  have h2 := List.reverse_prefix.2 h
  rwa [List.reverse_reverse] at h2

theorem trimmed_trim (l : List Char) : Trimmed (trimRight (l.dropWhile isSpace)) := by
  constructor
  · intro c hc
    obtain ⟨t, ht⟩ := trimRight_init (l.dropWhile isSpace)
    apply head?_dropWhile_isSpace l c
    rw [← ht, List.head?_append, hc]
    rfl
  · intro c hc
    unfold trimRight at hc
    rw [List.getLast?_reverse] at hc
    exact head?_dropWhile_isSpace _ c hc

theorem trim_of_trimmed {l : List Char} (h : Trimmed l) :
    trimRight (l.dropWhile isSpace) = l := by
  rw [dropWhile_isSpace_of_head h.1, trimRight_of_last h.2]

theorem head_escapeRune (c : Char) : ∃ t, escapeRune c = c :: t ∨ escapeRune c = '&' :: t := by
  unfold escapeRune
  split_ifs <;> simp

theorem last_escapeRune (c : Char) :
    (escapeRune c).getLast? = some c ∨ (escapeRune c).getLast? = some ';' := by
  unfold escapeRune
  split_ifs <;> simp

theorem trimmed_flatMap_escapeRune {l : List Char} (h : Trimmed l) :
    Trimmed (l.flatMap escapeRune) := by
  constructor
  · intro c hc
    cases l with
    | nil => simp at hc
    | cons a l =>
      obtain ⟨t, ht | ht⟩ := head_escapeRune a
      · rw [List.flatMap_cons, ht] at hc
        simp only [List.cons_append, List.head?_cons, Option.some.injEq] at hc
        subst hc
        exact h.1 a rfl
      · rw [List.flatMap_cons, ht] at hc
        simp only [List.cons_append, List.head?_cons, Option.some.injEq] at hc
        subst hc
        decide
  · intro c hc
    rcases List.eq_nil_or_concat l with rfl | ⟨l', a, rfl⟩
    · simp at hc
    · rw [List.concat_eq_append, List.flatMap_append] at hc
      have hne : (escapeRune a).getLast? ≠ none := by
        simpa using escapeRune_ne_nil a
      simp only [List.flatMap_cons, List.flatMap_nil, List.append_nil, List.getLast?_append] at hc
      rcases last_escapeRune a with ha | ha
      · rw [ha] at hc
        simp only [Option.or_some, Option.some.injEq] at hc
        subst hc
        exact h.2 a (by simp)
      · rw [ha] at hc
        simp only [Option.or_some, Option.some.injEq] at hc
        subst hc
        decide

theorem mem_dropWhile_isSpace {c : Char} (hc : isSpace c = false) :
    ∀ l : List Char, c ∈ l → c ∈ l.dropWhile isSpace
  | [], h => by simp at h
  | a :: l, h => by
    rw [List.dropWhile_cons]
    split_ifs with ha
    · rcases List.mem_cons.1 h with rfl | h
      · simp [hc] at ha
      · exact mem_dropWhile_isSpace hc l h
    · exact h

theorem mem_trim_iff {c : Char} (hc : isSpace c = false) (l : List Char) :
    c ∈ trimRight (l.dropWhile isSpace) ↔ c ∈ l := by
  constructor
  · intro h
    exact (List.dropWhile_suffix isSpace).subset ((trimRight_init _).subset h)
  · intro h
    unfold trimRight
    rw [List.mem_reverse]
    apply mem_dropWhile_isSpace hc
    rw [List.mem_reverse]
    exact mem_dropWhile_isSpace hc l h

theorem isSpace_of_special {c : Char} (h : isSpecial c = true) : isSpace c = false := by
  simp only [isSpecial, Bool.or_eq_true, beq_iff_eq] at h
  rcases h with (((rfl | rfl) | rfl) | rfl) | rfl <;> decide

/-- Each ampersand of an escaped sequence starts one of the five entities. -/
theorem amp_starts_entity :
    ∀ (l pre suf : List Char), l.flatMap escapeRune = pre ++ '&' :: suf →
      ∃ e ∈ entities, e.data <+: '&' :: suf
  | [], pre, suf, h => by simp at h
  | a :: l, pre, suf, h => by
    rw [List.flatMap_cons, List.append_eq_append_iff] at h
    rcases h with ⟨a', -, h2⟩ | ⟨c', h1, h2⟩
    · exact amp_starts_entity l a' suf h2
    · cases c' with
      | nil => exact amp_starts_entity l [] suf (by simpa using h2.symm)
      | cons x c'' =>
        simp only [List.cons_append, List.cons.injEq] at h2
        obtain ⟨rfl, rfl⟩ := h2
        by_cases hs : isSpecial a = true
        · obtain ⟨e, he, hae⟩ := escapeRune_of_special hs
          obtain ⟨body, hb, hamp, -⟩ := entity_shape he
          rw [hae, hb] at h1
          cases pre with
          | nil =>
            simp only [List.nil_append, List.cons.injEq, true_and] at h1
            subst h1
            exact ⟨e, he, by rw [hb]; exact ⟨l.flatMap escapeRune, by simp⟩⟩
          | cons p pre' =>
            simp only [List.cons_append, List.cons.injEq] at h1
            exact absurd (by rw [h1.2]; simp) hamp
        · have hs' : isSpecial a = false := by simpa using hs
          rw [escapeRune_of_not_special hs'] at h1
          cases pre with
          | nil =>
            simp only [List.nil_append, List.cons.injEq] at h1
            rw [h1.1] at hs
            exact absurd (by decide) hs
          | cons p pre' => simp at h1

theorem not_special_of_mem_flatMap {l : List Char} {c : Char}
    (hc : c ∈ l.flatMap escapeRune) : c = '&' ∨ isSpecial c = false := by
  obtain ⟨a, -, hca⟩ := List.mem_flatMap.1 hc
  by_cases hs : isSpecial a = true
  · obtain ⟨e, he, hae⟩ := escapeRune_of_special hs
    obtain ⟨body, hb, -, hbody, -⟩ := entity_shape he
    rw [hae, hb] at hca
    rcases List.mem_cons.1 hca with rfl | h
    · exact Or.inl rfl
    · exact Or.inr (hbody c h)
  · have hs' : isSpecial a = false := by simpa using hs
    rw [escapeRune_of_not_special hs'] at hca
    rw [List.mem_singleton.1 hca]
    exact Or.inr hs'

theorem sanitized_escape_trim (s : String) : Sanitized s (EscapeString (TrimSpace s)) := by
  have ht := trimmed_flatMap_escapeRune (trimmed_trim s.data)
  refine ⟨rfl, ht.1, ht.2, ?_, ?_⟩
  · intro c hc
    rcases not_special_of_mem_flatMap hc with rfl | h
    · decide
    · simp only [isSpecial, Bool.or_eq_false_iff, beq_eq_false_iff_ne, ne_eq] at h
      obtain ⟨⟨⟨⟨-, h2⟩, h3⟩, h4⟩, h5⟩ := h
      exact ⟨h3, h4, h5, h2⟩
  · intro pre suf h
    exact amp_starts_entity _ pre suf h

theorem escape_trim_idem_iff (s : String) :
    EscapeString (TrimSpace (EscapeString (TrimSpace s))) = EscapeString (TrimSpace s) ↔
      ∀ c ∈ s.data, isSpecial c = false := by
  have ht := trim_of_trimmed (trimmed_flatMap_escapeRune (trimmed_trim s.data))
  simp only [EscapeString, TrimSpace]
  rw [ht, String.ext_iff]
  show ((trimRight (s.data.dropWhile isSpace)).flatMap escapeRune).flatMap escapeRune
      = (trimRight (s.data.dropWhile isSpace)).flatMap escapeRune ↔ _
  rw [flatMap_escapeRune_idem_iff]
  constructor
  · intro h c hc
    by_contra hs
    have hs1 : isSpecial c = true := by simpa using hs
    have := h c ((mem_trim_iff (isSpace_of_special hs1) s.data).2 hc)
    exact hs this
  · intro h c hc
    exact h c ((List.dropWhile_suffix isSpace).subset ((trimRight_init _).subset hc))

/-- C9: after `Prepare` the nickname and the email are the HTML-escaping of the
trimmed original, they neither start nor end with white space, they contain none
of the characters `<`, `>`, `"`, `'`, and each `&` in them starts one of the
entities written by the escaping. -/
theorem prepare_sanitizes (t₁ t₂ : Time) (u : User) :
    Sanitized u.Nickname (Prepare t₁ t₂ u).Nickname ∧
    Sanitized u.Email (Prepare t₁ t₂ u).Email :=
  ⟨sanitized_escape_trim u.Nickname, sanitized_escape_trim u.Email⟩

/-- C5, as stated, fails: preparing the record with nickname "Tom & Jerry" twice
gives the nickname "Tom &amp;amp; Jerry", preparing it once gives
"Tom &amp; Jerry". -/
theorem prepare_idempotent_counterexample :
    (Prepare 3 4 (Prepare 1 2 ⟨9, " Tom & Jerry ", "tj@x.com", "pw", 0, 0⟩)).Nickname
      = "Tom &amp;amp; Jerry" ∧
    (Prepare 1 2 ⟨9, " Tom & Jerry ", "tj@x.com", "pw", 0, 0⟩).Nickname = "Tom &amp; Jerry" ∧
    (Prepare 3 4 (Prepare 1 2 ⟨9, " Tom & Jerry ", "tj@x.com", "pw", 0, 0⟩)).Nickname
      ≠ (Prepare 1 2 ⟨9, " Tom & Jerry ", "tj@x.com", "pw", 0, 0⟩).Nickname := by
  decide

/-- C5, amended: preparing a prepared record again keeps the id; it keeps the
nickname exactly when the original nickname contains none of the characters
`&`, `'`, `<`, `>`, `"`, and the email exactly when the original email contains
none of them. -/
theorem prepare_idempotent_iff (t₁ t₂ t₃ t₄ : Time) (u : User) :
    (Prepare t₃ t₄ (Prepare t₁ t₂ u)).ID = (Prepare t₁ t₂ u).ID ∧
    ((Prepare t₃ t₄ (Prepare t₁ t₂ u)).Nickname = (Prepare t₁ t₂ u).Nickname ↔
      ∀ c ∈ u.Nickname.data, isSpecial c = false) ∧
    ((Prepare t₃ t₄ (Prepare t₁ t₂ u)).Email = (Prepare t₁ t₂ u).Email ↔
      ∀ c ∈ u.Email.data, isSpecial c = false) :=
  ⟨rfl, escape_trim_idem_iff u.Nickname, escape_trim_idem_iff u.Email⟩

theorem prepare_idempotent_iff_witness :
    (Prepare 3 4 (Prepare 1 2 ⟨9, "  bob ", " bob@x.com", "pw", 0, 0⟩)).Nickname
      = (Prepare 1 2 ⟨9, "  bob ", " bob@x.com", "pw", 0, 0⟩).Nickname :=
  (prepare_idempotent_iff 1 2 3 4 ⟨9, "  bob ", " bob@x.com", "pw", 0, 0⟩).2.1.2 (by decide)

/-! ## The database methods -/

theorem store_take {σ : Type} (drv : Driver σ) (db : DB σ) (out : User) :
    (DB.Take drv db out).1.store = db.store := by
  unfold DB.Take
  by_cases h : db.Error ≠ none
  · rw [if_pos h]
  · rw [if_neg h]
    split <;> rfl

theorem take_of_none {σ : Type} (drv : Driver σ) (db : DB σ) (out : User)
    (hdb : db.Error = none)
    (h : drv.selectOne db.store (db.conds ++ (if out.ID ≠ 0 then [out.ID] else [])) = .ok none) :
    (DB.Take drv db out).1.Error = some GoError.RecordNotFound := by
  unfold DB.Take
  rw [if_neg (by simp [hdb]), h]

theorem delete_of_error {σ : Type} (drv : Driver σ) (db : DB σ) (h : db.Error ≠ none) :
    (DB.Delete drv db).store = db.store ∧ (DB.Delete drv db).Error = db.Error := by
  unfold DB.Delete
  rw [if_pos h]
  exact ⟨rfl, rfl⟩

/-- C4: when the fetch of `FindUserByID` reports `ErrRecordNotFound`, the method
returns that error as it is and not "User not found", for every driver and as on
the table holding the single row of id 1 searched for id 2. -/
theorem findUserByID_returns_raw_not_found :
    (∀ {σ : Type} (drv : Driver σ) (db : DB σ) (u : User) (uid : Nat),
      (DB.Take drv (db.Debug.Model.Where uid) u).1.Error = some GoError.RecordNotFound →
      FindUserByID drv db u uid = (User.zero, some GoError.RecordNotFound)) ∧
    FindUserByID memDriver (DB.connect [alice]) User.zero 2
      = (User.zero, some GoError.RecordNotFound) ∧
    (FindUserByID memDriver (DB.connect [alice]) User.zero 2).2 ≠ errorsNew "User not found" := by
  refine ⟨?_, by decide, by decide⟩
  intro σ drv db u uid h
  unfold FindUserByID
  simp [h]

/-- C6: on a handle without error, when hashing the password `p` of the record
gives the digest `d`, `SaveUser` hands to the INSERT of the backend the record
with password `d` and all its other fields unchanged, and returns what that
INSERT gives; with `verify d p = true` and `d ≠ p`, the password handed over
differs from `p` and verifies against `p`. -/
theorem saveUser_hands_over_digest {σ : Type} (drv : Driver σ)
    (generate : String → Except GoError String) (verify : String → String → Bool)
    (db : DB σ) (u : User) (d : String)
    (hdb : db.Error = none) (hgen : generate u.Password = .ok d)
    (hver : verify d u.Password = true) (hne : d ≠ u.Password) :
    (BeforeSave generate u).1 = { u with Password := d } ∧
    (BeforeSave generate u).1.Password ≠ u.Password ∧
    verify (BeforeSave generate u).1.Password u.Password = true ∧
    (BeforeSave generate u).1.ID = u.ID ∧
    (BeforeSave generate u).1.Nickname = u.Nickname ∧
    (BeforeSave generate u).1.Email = u.Email ∧
    (BeforeSave generate u).1.CreatedAt = u.CreatedAt ∧
    (BeforeSave generate u).1.UpdatedAt = u.UpdatedAt ∧
    SaveUser drv generate db u =
      (match drv.insert db.store (BeforeSave generate u).1 with
       | .error err => (db.store, User.zero, some err)
       | .ok (row, store) => (store, row, none)) := by
  have hb : BeforeSave generate u = ({ u with Password := d }, none) := by
    simp [BeforeSave, Hash, hgen]
  refine ⟨by rw [hb], by rw [hb]; exact hne, by rw [hb]; exact hver, by rw [hb], by rw [hb],
    by rw [hb], by rw [hb], by rw [hb], ?_⟩
  unfold SaveUser DB.Create
  simp only [DB.Debug, hdb, ne_eq, not_true_eq_false, ↓reduceIte, hb]
  cases drv.insert db.store { u with Password := d } with
  | error err => simp
  | ok p => simp

theorem saveUser_hands_over_digest_witness :
    SaveUser memDriver sampleGenerate (DB.connect [alice]) bob
      = ([alice, ⟨2, "bob", "bob@x.com", "$2a$10$secret", 5, 6⟩],
         ⟨2, "bob", "bob@x.com", "$2a$10$secret", 5, 6⟩, none) := by
  have h := (saveUser_hands_over_digest memDriver sampleGenerate sampleVerify
    (DB.connect [alice]) bob "$2a$10$secret" rfl rfl (by decide) (by decide)).2.2.2.2.2.2.2.2
  rw [h]
  decide

theorem setColumns_updateValues (u : User) (now : Time) (r : User) :
    setColumns (updateValues u now) r = some (patched u now r) := by
  simp [setColumns, updateValues, setColumn, patched]

theorem updateRows_updateValues (conds : List Nat) (u : User) (now : Time) :
    ∀ rows : List User, updateRows conds (updateValues u now) rows
      = some (rows.map (fun r => if matchesConds conds r then patched u now r else r))
  | [] => rfl
  | r :: rows => by
    unfold updateRows
    rw [updateRows_updateValues conds u now rows, setColumns_updateValues]
    by_cases h : matchesConds conds r = true
    · simp [h]
    · simp [h]

theorem map_key_patched (conds : List Nat) (u : User) (now : Time) (rows : List User) :
    (rows.map (fun r => if matchesConds conds r then patched u now r else r)).map
        (fun r => (r.ID, r.CreatedAt))
      = rows.map (fun r => (r.ID, r.CreatedAt)) := by
  rw [List.map_map]
  apply List.map_congr_left
  intro r _
  by_cases h : matchesConds conds r = true
  · simp [h, patched]
  · simp [h]

theorem store_updateColumns (db : DB (List User)) (u : User) (now : Time) :
    (DB.UpdateColumns memDriver db (updateValues u now)).store = db.store ∨
    (db.Error = none ∧
      (DB.UpdateColumns memDriver db (updateValues u now)).Error = none ∧
      (DB.UpdateColumns memDriver db (updateValues u now)).store
        = db.store.map (fun r => if matchesConds db.conds r then patched u now r else r)) := by
  unfold DB.UpdateColumns
  by_cases h : db.Error ≠ none
  · rw [if_pos h]
    exact Or.inl rfl
  · rw [if_neg h]
    have h' : db.Error = none := by simpa using h
    right
    simp only [memDriver, updateRows_updateValues]
    exact ⟨h', h', trivial⟩

/-- C7: the map that `UpdateAUser` passes to `UpdateColumns` names the columns
password, nickname, email and updated_at and no other. On the in-memory table,
when hashing fails the process ends before any statement; when it succeeds the
call returns, the table after it is either the table before it or the table
whose rows matching the conditions carry the digest, the nickname, the email of
the update record and the new instant, and in both cases every row keeps its id
and its `CreatedAt`, whatever the update record carries in these two fields. -/
theorem updateAUser_keeps_id_and_createdAt (generate : String → Except GoError String)
    (now : Time) (db : DB (List User)) (u : User) (uid : Nat) :
    (updateValues u now).map Prod.fst = ["password", "nickname", "email", "updated_at"] ∧
    (∀ err, generate u.Password = .error err →
      UpdateAUser memDriver generate now db u uid = Outcome.exit 1) ∧
    (∀ d, generate u.Password = .ok d →
      ∃ table u₁ err, UpdateAUser memDriver generate now db u uid = Outcome.ret (table, u₁, err) ∧
        (table = db.store ∨
          table = db.store.map (fun r =>
            if matchesConds (db.conds ++ [uid]) r then patched { u with Password := d } now r
            else r)) ∧
        table.map (fun r => (r.ID, r.CreatedAt)) = db.store.map (fun r => (r.ID, r.CreatedAt))) := by
  refine ⟨rfl, ?_, ?_⟩
  · intro err h
    simp [UpdateAUser, BeforeSave, Hash, h]
  · intro d h
    have hb : BeforeSave generate u = ({ u with Password := d }, none) := by
      simp [BeforeSave, Hash, h]
    have hstore := store_updateColumns (DB.Take memDriver (db.Debug.Model.Where uid) User.zero).1
      { u with Password := d } now
    have hkey : ∀ table : List User,
        (table = db.store ∨
          table = db.store.map (fun r =>
            if matchesConds (db.conds ++ [uid]) r then patched { u with Password := d } now r
            else r)) →
        table.map (fun r => (r.ID, r.CreatedAt)) = db.store.map (fun r => (r.ID, r.CreatedAt)) := by
      intro table ht
      rcases ht with rfl | rfl
      · rfl
      · exact map_key_patched _ _ _ _
    have hcase : (DB.UpdateColumns memDriver
          (DB.Take memDriver (db.Debug.Model.Where uid) User.zero).1
          (updateValues { u with Password := d } now)).store = db.store ∨
        (DB.UpdateColumns memDriver
          (DB.Take memDriver (db.Debug.Model.Where uid) User.zero).1
          (updateValues { u with Password := d } now)).store
          = db.store.map (fun r =>
            if matchesConds (db.conds ++ [uid]) r then patched { u with Password := d } now r
            else r) := by
      rcases hstore with h1 | ⟨-, -, h1⟩
      · left
        rw [h1, store_take]
        rfl
      · right
        rw [h1, store_take]
        have hc : (DB.Take memDriver (db.Debug.Model.Where uid) User.zero).1.conds
            = db.conds ++ [uid] := by
          unfold DB.Take
          by_cases he : (db.Debug.Model.Where uid).Error ≠ none
          · rw [if_pos he]
            rfl
          · rw [if_neg he]
            split <;> rfl
        rw [hc]
        rfl
    unfold UpdateAUser
    simp only [hb]
    split_ifs with h1 h2
    · exact ⟨_, _, _, rfl, hcase, hkey _ hcase⟩
    · refine ⟨_, _, _, rfl, ?_, ?_⟩
      · rw [store_take]
        exact hcase
      · rw [store_take]
        exact hkey _ hcase
    · refine ⟨_, _, _, rfl, ?_, ?_⟩
      · rw [store_take]
        exact hcase
      · rw [store_take]
        exact hkey _ hcase

theorem updateAUser_keeps_id_and_createdAt_witness :
    ∃ table u₁ err,
      UpdateAUser memDriver sampleGenerate 9 (DB.connect [alice])
        ⟨44, "bob", "bob@x.com", "secret", 77, 78⟩ 1 = Outcome.ret (table, u₁, err) ∧
      (table = [alice] ∨
        table = [alice].map (fun r =>
          if matchesConds ([] ++ [1]) r then
            patched { (⟨44, "bob", "bob@x.com", "secret", 77, 78⟩ : User) with
              Password := "$2a$10$secret" } 9 r
          else r)) ∧
      table.map (fun r => (r.ID, r.CreatedAt)) = [alice].map (fun r => (r.ID, r.CreatedAt)) :=
  (updateAUser_keeps_id_and_createdAt sampleGenerate 9 (DB.connect [alice])
    ⟨44, "bob", "bob@x.com", "secret", 77, 78⟩ 1).2.2 "$2a$10$secret" rfl

/-- C8, as stated, fails: on the table holding the single row of id 1,
`DeleteAUser` for the id 2, which matches no row, returns 0 rows affected
together with the error `ErrRecordNotFound`, not a nil error. -/
theorem deleteAUser_missing_row_counterexample :
    (∀ r ∈ [alice], r.ID ≠ 2) ∧
    DeleteAUser memDriver (DB.connect [alice]) User.zero 2
      = ([alice], 0, some GoError.RecordNotFound) ∧
    (DeleteAUser memDriver (DB.connect [alice]) User.zero 2).2.2 ≠ none := by
  decide

/-- C8, amended: on a handle without error, when the fetch for the id finds no
row, `DeleteAUser` returns 0 rows affected together with the error
`ErrRecordNotFound` of that fetch and leaves the content of the database
unchanged. -/
theorem deleteAUser_missing_row {σ : Type} (drv : Driver σ) (db : DB σ) (u : User) (uid : Nat)
    (hdb : db.Error = none) (hmiss : drv.selectOne db.store (db.conds ++ [uid]) = .ok none) :
    DeleteAUser drv db u uid = (db.store, 0, some GoError.RecordNotFound) := by
  have herr : (DB.Take drv (db.Debug.Model.Where uid) User.zero).1.Error
      = some GoError.RecordNotFound := by
    apply take_of_none
    · exact hdb
    · simpa [DB.Where, DB.Model, DB.Debug, User.zero] using hmiss
  have hd := delete_of_error drv (DB.Take drv (db.Debug.Model.Where uid) User.zero).1
    (by rw [herr]; simp)
  unfold DeleteAUser
  simp only [hd.2, herr, hd.1, store_take]
  simp [DB.Where, DB.Model, DB.Debug]

theorem deleteAUser_missing_row_witness :
    DeleteAUser memDriver (DB.connect [alice, bob]) bob 7
      = ([alice, bob], 0, some GoError.RecordNotFound) :=
  deleteAUser_missing_row memDriver (DB.connect [alice, bob]) bob 7 rfl rfl

end Models
